import Mathlib

/-
Verification of `library/sabnzbd_config.py` (Ansible module `sabnzbd_config`).

The module edits SABnzbd's `sabnzbd.ini` through SABnzbd's own configuration
library (a ConfigObj-style nested dictionary of sections and string options).
We embed:

  * the configuration object as an ordered association tree (`CEntries`),
    with ConfigObj's `merge`, dictionary lookup / assignment / deletion;
  * the wrapper's operations `do_present`, `do_absent`, `do_batch`;
  * the change detection `is_changed` and the `run` / `cleanup` result,
    with the external `AnsibleModule.set_fs_attributes_if_different`
    modelled by its documented behaviour (it returns its `changed`
    argument OR-ed with whether some file attribute was adjusted);
  * the file-I/O trace of one invocation of `run` (reads / writes of
    `sabnzbd.ini`), including the forced library-side write performed by
    `save_config` on every `read_config`;
  * `validate`'s missing-argument computation and the plugin parameter
    contract of `main`;
  * `set_libdir` together with `posixpath.dirname`.

Python errors that escape (AttributeError / TypeError / NameError) and
`module.fail_json` terminations are represented by `Except` / `Outcome`
values.
-/

namespace SabnzbdConfig

/-- Ordered entries of one ConfigObj section (or of the top level of the
configuration).  A key is bound either to a plain string value
(`consStr`) or to a nested subsection (`consSec`); entry order is the
insertion order, as in ConfigObj. -/
inductive CEntries where
  | nil : CEntries
  | consStr : String → String → CEntries → CEntries
  | consSec : String → CEntries → CEntries → CEntries
deriving DecidableEq, Repr

/-- A value stored in the configuration: a plain string or a subsection. -/
inductive CVal where
  | str : String → CVal
  | sec : CEntries → CVal
deriving DecidableEq, Repr

/-- Python dictionary lookup `cfg[k]` (first binding of `k`). -/
def lookupE (cfg : CEntries) (k : String) : Option CVal :=
  match cfg with
  | .nil => none
  | .consStr k' a r => if k' = k then some (.str a) else lookupE r k
  | .consSec k' e r => if k' = k then some (.sec e) else lookupE r k

/-- Rebuild a single entry from a key and a `CVal`. -/
def consV (k : String) (v : CVal) (r : CEntries) : CEntries :=
  match v with
  | .str a => .consStr k a r
  | .sec e => .consSec k e r

/-- Python dictionary assignment `cfg[k] = v`: replace the value at an
existing key in place, otherwise append the new binding at the end. -/
def setE (cfg : CEntries) (k : String) (v : CVal) : CEntries :=
  match cfg with
  | .nil => consV k v .nil
  | .consStr k' a r => if k' = k then consV k v r else .consStr k' a (setE r k v)
  | .consSec k' e r => if k' = k then consV k v r else .consSec k' e (setE r k v)

/-- Python `del cfg[k]`: drop the first binding of `k` (dictionaries hold
at most one). -/
def eraseE (cfg : CEntries) (k : String) : CEntries :=
  match cfg with
  | .nil => .nil
  | .consStr k' a r => if k' = k then r else .consStr k' a (eraseE r k)
  | .consSec k' e r => if k' = k then r else .consSec k' e (eraseE r k)

/-- Python `k in cfg`. -/
def memKey (cfg : CEntries) (k : String) : Bool :=
  match cfg with
  | .nil => false
  | .consStr k' _ r => k' = k || memKey r k
  | .consSec k' _ r => k' = k || memKey r k

/-- Well-formedness of a configuration tree as produced by ConfigObj: at
every level each key is bound at most once. -/
def wfE (cfg : CEntries) : Bool :=
  match cfg with
  | .nil => true
  | .consStr k _ r => !(memKey r k) && wfE r
  | .consSec k e r => !(memKey r k) && wfE e && wfE r

/-- Lookup along a path of keys: `lookupPath cfg [s, o]` is `cfg[s][o]`. -/
def lookupPath (cfg : CEntries) (p : List String) : Option CVal :=
  match p with
  | [] => none
  | k :: rest =>
    match lookupE cfg k, rest with
    | some v, [] => some v
    | some (.sec e), _ :: _ => lookupPath e rest
    | _, _ => none

/-- ConfigObj's recursive `Section.merge(indict)` (the SABnzbd library's
merge routine): for each entry of `indict` in order, if both the present
value and the incoming value are dictionaries the merge recurses,
otherwise the incoming value overwrites (or creates) the binding. -/
def mergeE (self indict : CEntries) : CEntries :=
  match indict with
  | .nil => self
  | .consStr k a rest => mergeE (setE self k (.str a)) rest
  | .consSec k sub rest =>
    match lookupE self k with
    | some (.sec s0) => mergeE (setE self k (.sec (mergeE s0 sub))) rest
    | _ => mergeE (setE self k (.sec sub)) rest

/-- Python exception / termination channel of the wrapper's methods. -/
inductive PyErr where
  | attributeError : PyErr
  | typeError : PyErr
  | nameError : PyErr
  | failJson : PyErr
deriving DecidableEq, Repr

/-- Value of the module's untyped `option` / `value` parameters as they
reach `do_absent`: Python `None`, a string, a dictionary (keys mapped to
further option values), an iterable of keys, or anything else. -/
inductive PVal where
  | pynone : PVal
  | str : String → PVal
  | dnil : PVal
  | dcons : String → PVal → PVal → PVal
  | lnil : PVal
  | lcons : String → PVal → PVal
  | other : PVal
deriving DecidableEq, Repr

/-- Termination measure for `do_absent`: Python's recursion bottoms out
because every nested call passes `None` (or a structurally smaller piece
of the option dictionary) onwards. -/
def pvalSize (p : PVal) : Nat :=
  match p with
  | .pynone => 0
  | .str _ => 1
  | .dnil => 1
  | .dcons _ v rest => 1 + pvalSize v + pvalSize rest
  | .lnil => 1
  | .lcons _ rest => 2 + pvalSize rest
  | .other => 0

/-- `SABnzbdConfigWrapper.do_present`: `config[section].merge({option: value})`,
falling back to `config[section] = {option: value}` on `KeyError`.  When
`section` is bound to a plain string, `.merge` does not exist on it and
Python raises an uncaught `AttributeError`. -/
def do_present (cfg : CEntries) (s o : String) (v : CVal) : Except PyErr CEntries :=
  match lookupE cfg s with
  | some (.sec es) => .ok (setE cfg s (.sec (mergeE es (consV o v .nil))))
  | some (.str _) => .error .attributeError
  | none => .ok (setE cfg s (.sec (consV o v .nil)))

mutual

/-- `SABnzbdConfigWrapper.do_absent`.  A missing section is caught
(`KeyError`) and the call returns with the configuration unchanged.  With
`option = None` the whole section is deleted; a dictionary option recurses
entry-wise into the section (each recursive call leaving `value` at its
default `None`); an iterable option recurses on each listed key with the
current `value` as the new option; a string option recurses with the
string as the section name and `option = None`, deleting that single
entry; any other option type is reported through `fail_json`.  Indexing a
string-valued entry inside a recursive call raises `TypeError`. -/
def do_absent (cfg : CEntries) (s : String) (opt val : PVal) : Except PyErr CEntries :=
  match lookupE cfg s with
  | none => .ok cfg
  | some sv =>
    match opt with
    | .pynone => .ok (eraseE cfg s)
    | .dnil => .ok cfg
    | .dcons k v rest =>
      match sv with
      | .str _ => .error .typeError
      | .sec es =>
        match do_absent es k v .pynone with
        | .error e => .error e
        | .ok es1 =>
          match do_absent_dict es1 rest with
          | .error e => .error e
          | .ok es2 => .ok (setE cfg s (.sec es2))
    | .lnil => .ok cfg
    | .lcons k rest =>
      match sv with
      | .str _ => .error .typeError
      | .sec es =>
        match do_absent es k val .pynone with
        | .error e => .error e
        | .ok es1 =>
          match do_absent_list es1 rest val with
          | .error e => .error e
          | .ok es2 => .ok (setE cfg s (.sec es2))
    | .str o =>
      match sv with
      | .str _ => .error .typeError
      | .sec es =>
        match do_absent es o .pynone .pynone with
        | .error e => .error e
        | .ok es1 => .ok (setE cfg s (.sec es1))
    | .other => .error .failJson
termination_by pvalSize opt + pvalSize val
decreasing_by
  all_goals simp_wf
  all_goals simp [pvalSize]
  all_goals omega

/-- Remaining iterations of `do_absent`'s dictionary loop over one
section's entries. -/
def do_absent_dict (es : CEntries) (d : PVal) : Except PyErr CEntries :=
  match d with
  | .dcons k v rest =>
    match do_absent es k v .pynone with
    | .error e => .error e
    | .ok es1 => do_absent_dict es1 rest
  | _ => .ok es
termination_by pvalSize d
decreasing_by
  all_goals simp_wf
  all_goals simp [pvalSize]
  all_goals omega

/-- Remaining iterations of `do_absent`'s iterable loop over one
section's entries. -/
def do_absent_list (es : CEntries) (l : PVal) (val : PVal) : Except PyErr CEntries :=
  match l with
  | .lcons k rest =>
    match do_absent es k val .pynone with
    | .error e => .error e
    | .ok es1 => do_absent_list es1 rest val
  | _ => .ok es
termination_by pvalSize l + pvalSize val
decreasing_by
  all_goals simp_wf
  all_goals simp [pvalSize]
  all_goals omega

end

/-- `SABnzbdConfigWrapper.do_batch`: merge the module-level `settings`
tree into the current configuration (`self.get_config().merge(self.settings)`). -/
def do_batch (cfg settings : CEntries) : CEntries :=
  mergeE cfg settings

/-- A path of keys the settings tree does not mention: its final key is
unbound in the (sub-)dictionary reached by following the earlier keys
through nested sections of the tree, or some earlier key is unbound
there.  A path running through a key the tree binds to a plain string
counts as mentioned (the merge overwrites that whole binding), as does a
path ending at a bound key. -/
def unmentioned (st : CEntries) (q : List String) : Bool :=
  match q with
  | [] => false
  | [k] => !(memKey st k)
  | k :: rest =>
    match lookupE st k with
    | none => true
    | some (.str _) => false
    | some (.sec sub) => unmentioned sub rest

/-- `SABnzbdConfigWrapper.is_changed`: `cmp(left, right) != 0` on the two
dictionary snapshots. -/
def is_changed (left right : CEntries) : Bool :=
  if left = right then false else true

/-- The ambient state of one invocation that `run` / `cleanup` consult:
Ansible's check (dry-run) mode, the module's `backup` flag, and whether
the framework's file-attribute synchronisation
(`set_fs_attributes_if_different`) adjusts any attribute of the file. -/
structure RunCtx where
  check_mode : Bool
  backup : Bool
  fsAttrsChanged : Bool
deriving DecidableEq, Repr

/-- Models `AnsibleModule.set_fs_attributes_if_different(file_args, changed)`
from Ansible's `module_utils/basic.py`: it returns its `changed` argument
OR-ed with whether some attribute (owner, group, mode, context) had to be
changed on the file. -/
def set_fs_attributes_if_different (fsChanged changed : Bool) : Bool :=
  changed || fsChanged

/-- Result channel of `SABnzbdConfigWrapper.cleanup(changed)`.  In check
mode the pre-run copy of the file is restored and `changed` is returned
as-is.  Otherwise, when a change was detected and `backup` is set, the
call `self.module.backup_local(filename)` evaluates the undefined name
`filename` (the attribute is `self.filename`) and raises an uncaught
`NameError`; with `backup` unset the new configuration is written and the
return value is `set_fs_attributes_if_different(file_args, changed)`. -/
def cleanup_changed (ctx : RunCtx) (changed : Bool) : Except PyErr Bool :=
  if ctx.check_mode then .ok changed
  else if changed && ctx.backup then .error .nameError
  else .ok (set_fs_attributes_if_different ctx.fsAttrsChanged changed)

/-- The changed/unchanged result of `SABnzbdConfigWrapper.run`, given the
dictionary snapshots taken before the operation and after the
write-and-reload: `changed = is_changed(init_config_dict, new_config_dict)`
passed through `cleanup`. -/
def run_changed (ctx : RunCtx) (initDict newDict : CEntries) : Except PyErr Bool :=
  cleanup_changed ctx (is_changed initDict newDict)

/-- One file-level operation on `sabnzbd.ini` during an invocation. -/
inductive FEvent where
  | read : FEvent
  | write : FEvent
  | copyAside : FEvent
  | restore : FEvent
  | backupCopy : FEvent
deriving DecidableEq, Repr

/-- File operations of `SABnzbdConfigWrapper.read_config`: the file is
parsed from disk (`sabnzbd.config.read_config`) and then immediately
written back by the forced `save_config()` call (SABnzbd's
`save_config` ends in `CFG.write()`). -/
def read_config_trace : List FEvent :=
  [.read, .write]

/-- File operations of one `run` invocation, with `changed` the detected
change flag: `__init__` copies the file aside to a temporary path, `run`
performs `get_config()` (a `read_config`), `write_config()`, and
`get_config(reload=True)` (another `read_config`), and finally `cleanup`
either restores the temporary copy (check mode), crashes with `NameError`
in the backup branch, or writes the file once more when a change was
detected.  The second component records a crash that aborts the
invocation. -/
def run_trace (ctx : RunCtx) (changed : Bool) : List FEvent × Option PyErr :=
  let pre := [.copyAside] ++ read_config_trace ++ [.write] ++ read_config_trace
  if ctx.check_mode then (pre ++ [.restore], none)
  else if changed && ctx.backup then (pre, some .nameError)
  else if changed then (pre ++ [.write], none)
  else (pre, none)

/-- Number of parses of the configuration file in a trace. -/
def countReads (t : List FEvent) : Nat :=
  t.countP (fun e => match e with | .read => true | _ => false)

/-- Number of writes of the configuration file in a trace. -/
def countWrites (t : List FEvent) : Nat :=
  t.countP (fun e => match e with | .write => true | _ => false)

/-- Number of timestamped backup copies made in a trace. -/
def countBackups (t : List FEvent) : Nat :=
  t.countP (fun e => match e with | .backupCopy => true | _ => false)

/-- The `choices` restriction that `main`'s `argument_spec` places on the
`state` parameter. -/
def stateInChoices (st : String) : Bool :=
  st = "batch" || st = "absent" || st = "present"

/-- What `main`'s `argument_spec` accepts: `dest` is required, `state` is
restricted to its choices, and `libdir`, `settings`, `section`, `option`,
`value` and `backup` are all optional with no interdependencies. -/
def argument_spec_accepts (destGiven : Bool) (st : String) : Bool :=
  destGiven && stateInChoices st

/-- `SABnzbdConfigWrapper.validate`: the list of arguments the module
itself reports as missing, given the state and whether `settings` is a
dictionary and `section` / `option` are non-`None`. -/
def validateMissing (st : String) (settingsIsDict sectionGiven optionGiven : Bool) : List String :=
  if st = "batch" then
    (if settingsIsDict then [] else [("settings")])
  else if st = "present" then
    (if sectionGiven then [] else [("section")]) ++ (if optionGiven then [] else [("option")])
  else if st = "absent" then
    (if sectionGiven then [] else [("section")])
  else []

/-- Conditions of one invocation that determine which failure, if any, it
runs into. -/
structure Env where
  state : String
  settingsIsDict : Bool
  sectionGiven : Bool
  optionGiven : Bool
  libOk : Bool
  readOk : Bool
  saveOk : Bool
  writeOk : Bool
  check_mode : Bool
  backupFlag : Bool
  fsAttrsChanged : Bool
deriving DecidableEq, Repr

/-- How one invocation terminates, as seen by the calling automation
tool. -/
inductive Outcome where
  | paramFail : Outcome
  | failJsonMsg : String → Outcome
  | crash : String → Outcome
  | exitChanged : Bool → Outcome
deriving DecidableEq, Repr

/-- End-to-end control flow of one invocation of `main`, with `changed`
the change flag the snapshot comparison would produce.  In order:
`AnsibleModule` rejects a `state` outside its choices; `validate`
reports missing mode-dependent arguments through `fail_json`;
`__init__` reports an unloadable SABnzbd library through `fail_json`;
`read_config` reports an unreadable file through `fail_json` and a failed
`save_config` likewise; `write_config` on an unwritable file enters its
`IOError` handler, which evaluates the undefined name `filename` and so
raises `NameError` instead of reaching `fail_json`; finally `cleanup`
runs as in `cleanup_changed`. -/
def module_outcome (e : Env) (changed : Bool) : Outcome :=
  if !(stateInChoices e.state) then .paramFail
  else if !(validateMissing e.state e.settingsIsDict e.sectionGiven e.optionGiven).isEmpty then
    .failJsonMsg ("Missing required arguments")
  else if !e.libOk then .failJsonMsg ("Cannot load SABnzbd python libraries")
  else if !e.readOk then .failJsonMsg ("Cannot read SABnzbd config file")
  else if !e.saveOk then .failJsonMsg ("Cannot save SABnzbd config file")
  else if !e.writeOk then .crash ("NameError")
  else if e.check_mode then .exitChanged changed
  else if changed && e.backupFlag then .crash ("NameError")
  else .exitChanged (set_fs_attributes_if_different e.fsAttrsChanged changed)

/-- Python's `str.rstrip('/')` on a character list. -/
def rstripSlashes (p : List Char) : List Char :=
  (p.reverse.dropWhile (fun c => c = '/')).reverse

/-- `posixpath.dirname`: everything up to and including the final slash
(`p[:p.rfind('/') + 1]`), with trailing slashes stripped unless the head
is empty or consists only of slashes. -/
def posixDirname (p : List Char) : List Char :=
  let head := (p.reverse.dropWhile (fun c => c ≠ '/')).reverse
  if head ≠ [] ∧ head.any (fun c => c ≠ '/') then rstripSlashes head else head

/-- `SABnzbdConfigWrapper.set_libdir`: an explicitly given library
directory is used as-is; when the parameter is `None`, the directory part
of the destination file name (`os.path.dirname(self.filename)`) is used. -/
def set_libdir (libdir : Option (List Char)) (filename : List Char) : List Char :=
  match libdir with
  | some d => d
  | none => posixDirname filename

/-! Helper lemmas about the association-tree operations. -/

theorem lookupE_consV (k : String) (v : CVal) (r : CEntries) :
    lookupE (consV k v r) k = some v := by
  cases v <;> simp [consV, lookupE]

theorem lookupE_consV_ne {k k' : String} (h : k ≠ k') (v : CVal) (r : CEntries) :
    lookupE (consV k v r) k' = lookupE r k' := by
  cases v <;> simp [consV, lookupE, h]

theorem lookupE_setE_self (cfg : CEntries) (k : String) (v : CVal) :
    lookupE (setE cfg k v) k = some v := by
  induction cfg with
  | nil => exact lookupE_consV k v .nil
  | consStr k' a r ih =>
    by_cases h : k' = k
    · simpa [setE, h] using lookupE_consV k v r
    · simp [setE, h, lookupE, ih]
  | consSec k' e r ihe ihr =>
    by_cases h : k' = k
    · simpa [setE, h] using lookupE_consV k v r
    · simp [setE, h, lookupE, ihr]

theorem lookupE_setE_ne (cfg : CEntries) {k k' : String} (h : k ≠ k') (v : CVal) :
    lookupE (setE cfg k v) k' = lookupE cfg k' := by
  induction cfg with
  | nil => simp [setE, lookupE, lookupE_consV_ne h]
  | consStr k0 a r ih =>
    by_cases h0 : k0 = k
    · subst h0; simp [setE, lookupE, lookupE_consV_ne h, h]
    · simp [setE, h0, lookupE, ih]
  | consSec k0 e r ihe ihr =>
    by_cases h0 : k0 = k
    · subst h0; simp [setE, lookupE, lookupE_consV_ne h, h]
    · simp [setE, h0, lookupE, ihr]

theorem lookupE_eq_none_of_memKey_eq_false {cfg : CEntries} {k : String}
    (h : memKey cfg k = false) : lookupE cfg k = none := by
  induction cfg with
  | nil => simp [lookupE]
  | consStr k' a r ih =>
    simp only [memKey, Bool.or_eq_false_iff, decide_eq_false_iff_not] at h
    simp [lookupE, h.1, ih h.2]
  | consSec k' e r ihe ihr =>
    simp only [memKey, Bool.or_eq_false_iff, decide_eq_false_iff_not] at h
    simp [lookupE, h.1, ihr h.2]

theorem eraseE_of_memKey_eq_false {cfg : CEntries} {k : String}
    (h : memKey cfg k = false) : eraseE cfg k = cfg := by
  induction cfg with
  | nil => simp [eraseE]
  | consStr k' a r ih =>
    simp only [memKey, Bool.or_eq_false_iff, decide_eq_false_iff_not] at h
    simp [eraseE, h.1, ih h.2]
  | consSec k' e r ihe ihr =>
    simp only [memKey, Bool.or_eq_false_iff, decide_eq_false_iff_not] at h
    simp [eraseE, h.1, ihr h.2]

theorem lookupE_eraseE_self {cfg : CEntries} (k : String) (hwf : wfE cfg = true) :
    lookupE (eraseE cfg k) k = none := by
  induction cfg with
  | nil => simp [eraseE, lookupE]
  | consStr k' a r ih =>
    simp only [wfE, Bool.and_eq_true, Bool.not_eq_true'] at hwf
    by_cases h : k' = k
    · subst h; simp [eraseE, lookupE_eq_none_of_memKey_eq_false hwf.1]
    · simp [eraseE, h, lookupE, ih hwf.2]
  | consSec k' e r ihe ihr =>
    simp only [wfE, Bool.and_eq_true, Bool.not_eq_true'] at hwf
    by_cases h : k' = k
    · subst h; simp [eraseE, lookupE_eq_none_of_memKey_eq_false hwf.1.1]
    · simp [eraseE, h, lookupE, ihr hwf.2]

theorem lookupE_eraseE_ne (cfg : CEntries) {k k' : String} (h : k' ≠ k) :
    lookupE (eraseE cfg k) k' = lookupE cfg k' := by
  induction cfg with
  | nil => simp [eraseE]
  | consStr k0 a r ih =>
    by_cases h0 : k0 = k
    · have h2 : ¬ (k = k') := fun hh => h hh.symm
      simp [eraseE, h0, lookupE, h2]
    · simp [eraseE, h0, lookupE, ih]
  | consSec k0 e r ihe ihr =>
    by_cases h0 : k0 = k
    · have h2 : ¬ (k = k') := fun hh => h hh.symm
      simp [eraseE, h0, lookupE, h2]
    · simp [eraseE, h0, lookupE, ihr]

theorem wfE_of_lookupE_sec {cfg : CEntries} {k : String} {e : CEntries}
    (hwf : wfE cfg = true) (h : lookupE cfg k = some (.sec e)) : wfE e = true := by
  induction cfg with
  | nil => simp [lookupE] at h
  | consStr k' a r ih =>
    simp only [wfE, Bool.and_eq_true] at hwf
    by_cases h0 : k' = k
    · simp [lookupE, h0] at h
    · simp only [lookupE, h0, if_false] at h
      exact ih hwf.2 h
  | consSec k' e0 r ihe ihr =>
    simp only [wfE, Bool.and_eq_true] at hwf
    by_cases h0 : k' = k
    · simp only [lookupE, h0, if_true] at h
      obtain rfl : e0 = e := by injection h with h'; injection h'
      exact hwf.1.2
    · simp only [lookupE, h0, if_false] at h
      exact ihr hwf.2 h

/-- What `merge` leaves at key `k`: the incoming binding wins, except that
two subsections are merged recursively, and keys the incoming dictionary
does not mention keep their previous value.  The incoming dictionary is
assumed to bind each key once (it is a Python dictionary). -/
theorem lookupE_mergeE (indict : CEntries) (hwf : wfE indict = true) (self : CEntries)
    (k : String) :
    lookupE (mergeE self indict) k =
      match lookupE indict k with
      | none => lookupE self k
      | some (.str a) => some (.str a)
      | some (.sec sub) =>
        match lookupE self k with
        | some (.sec s0) => some (.sec (mergeE s0 sub))
        | _ => some (.sec sub) := by
  induction indict generalizing self with
  | nil => simp [mergeE, lookupE]
  | consStr k' a rest ih =>
    simp only [wfE, Bool.and_eq_true, Bool.not_eq_true'] at hwf
    rw [show mergeE self (.consStr k' a rest) = mergeE (setE self k' (.str a)) rest from rfl]
    rw [ih hwf.2]
    by_cases hk : k' = k
    · have h1 : lookupE rest k = none := by
        rw [← hk]; exact lookupE_eq_none_of_memKey_eq_false hwf.1
      simp [lookupE, hk, h1, lookupE_setE_self]
    · have hset : ∀ (v : CVal), lookupE (setE self k' v) k = lookupE self k :=
        fun v => lookupE_setE_ne self hk v
      cases hR : lookupE rest k with
      | none => simp [lookupE, hk, hR, hset]
      | some w => cases w <;> simp [lookupE, hk, hR, hset]
  | consSec k' sub0 rest ihe ihr =>
    simp only [wfE, Bool.and_eq_true, Bool.not_eq_true'] at hwf
    by_cases hk : k' = k
    · have h1 : lookupE rest k = none := by
        rw [← hk]; exact lookupE_eq_none_of_memKey_eq_false hwf.1.1
      cases hs : lookupE self k' with
      | none =>
        rw [show mergeE self (.consSec k' sub0 rest) = mergeE (setE self k' (.sec sub0)) rest
          from by rw [mergeE, hs]]
        rw [ihr hwf.2]
        simp [lookupE, hk, h1, hk ▸ hs, lookupE_setE_self]
      | some v =>
        cases v with
        | str b =>
          rw [show mergeE self (.consSec k' sub0 rest) = mergeE (setE self k' (.sec sub0)) rest
            from by rw [mergeE, hs]]
          rw [ihr hwf.2]
          simp [lookupE, hk, h1, hk ▸ hs, lookupE_setE_self]
        | sec s0 =>
          rw [show mergeE self (.consSec k' sub0 rest)
              = mergeE (setE self k' (.sec (mergeE s0 sub0))) rest from by rw [mergeE, hs]]
          rw [ihr hwf.2]
          simp [lookupE, hk, h1, hk ▸ hs, lookupE_setE_self]
    · have hset : ∀ (v : CVal), lookupE (setE self k' v) k = lookupE self k :=
        fun v => lookupE_setE_ne self hk v
      have hstep : ∀ (x : CVal),
          (match lookupE (setE self k' x) k with
            | none => lookupE (setE self k' x) k
            | some w => some w) = lookupE (setE self k' x) k := by
        intro x; cases lookupE (setE self k' x) k <;> rfl
      cases hs : lookupE self k' with
      | none =>
        rw [show mergeE self (.consSec k' sub0 rest) = mergeE (setE self k' (.sec sub0)) rest
          from by rw [mergeE, hs]]
        rw [ihr hwf.2]
        cases hR : lookupE rest k with
        | none => simp [lookupE, hk, hR, hset]
        | some w => cases w <;> simp [lookupE, hk, hR, hset]
      | some v =>
        cases v with
        | str b =>
          rw [show mergeE self (.consSec k' sub0 rest) = mergeE (setE self k' (.sec sub0)) rest
            from by rw [mergeE, hs]]
          rw [ihr hwf.2]
          cases hR : lookupE rest k with
          | none => simp [lookupE, hk, hR, hset]
          | some w => cases w <;> simp [lookupE, hk, hR, hset]
        | sec s0 =>
          rw [show mergeE self (.consSec k' sub0 rest)
              = mergeE (setE self k' (.sec (mergeE s0 sub0))) rest from by rw [mergeE, hs]]
          rw [ihr hwf.2]
          cases hR : lookupE rest k with
          | none => simp [lookupE, hk, hR, hset]
          | some w => cases w <;> simp [lookupE, hk, hR, hset]

/-- Every string entry of the incoming tree, at any path, is present in
the merged configuration. -/
theorem lookupPath_mergeE (p : List String) :
    ∀ (indict self : CEntries) (v : String), wfE indict = true →
    lookupPath indict p = some (.str v) →
    lookupPath (mergeE self indict) p = some (.str v) := by
  induction p with
  | nil => intro indict self v _ h; simp [lookupPath] at h
  | cons k rest ih =>
    intro indict self v hwf h
    have hm := lookupE_mergeE indict hwf self k
    cases h1 : lookupE indict k with
    | none => simp [lookupPath, h1] at h
    | some w =>
      rw [h1] at hm
      cases w with
      | str a =>
        cases rest with
        | nil =>
          simp only [lookupPath, h1, Option.some.injEq] at h
          simp [lookupPath, hm, h]
        | cons r rs => simp [lookupPath, h1] at h
      | sec sub =>
        cases rest with
        | nil => simp [lookupPath, h1] at h
        | cons r rs =>
          simp only [lookupPath, h1] at h
          have hsub : wfE sub = true := wfE_of_lookupE_sec hwf h1
          cases hs : lookupE self k with
          | none =>
            rw [hs] at hm
            simp only at hm
            simp only [lookupPath, hm]
            exact h
          | some u =>
            cases u with
            | str b =>
              rw [hs] at hm
              simp only at hm
              simp only [lookupPath, hm]
              exact h
            | sec s0 =>
              rw [hs] at hm
              simp only at hm
              simp only [lookupPath, hm]
              exact ih sub s0 v hsub h

theorem memKey_eq_false_of_lookupE_eq_none {cfg : CEntries} {k : String}
    (h : lookupE cfg k = none) : memKey cfg k = false := by
  induction cfg with
  | nil => simp [memKey]
  | consStr k' a r ih =>
    by_cases h0 : k' = k
    · simp [lookupE, h0] at h
    · simp only [lookupE, h0, if_false] at h
      simp [memKey, h0, ih h]
  | consSec k' e r ihe ihr =>
    by_cases h0 : k' = k
    · simp [lookupE, h0] at h
    · simp only [lookupE, h0, if_false] at h
      simp [memKey, h0, ihr h]

/-- C1 (amended): in present mode, provided the prior binding of section
`s` — if any — is a section rather than a plain string value, `do_present`
succeeds and afterwards the configuration maps section `s`, option `o`
to the value `v`; if `s` did not exist beforehand it is created
containing exactly the pair `{o: v}`; all other top-level keys are left
unchanged.  (As stated the claim also covers a prior plain-string
binding of `s`, where the code instead raises an uncaught
`AttributeError`; see the counterexample.) -/
theorem C1_do_present (cfg : CEntries) (s o v : String)
    (hs : ∀ a, lookupE cfg s ≠ some (.str a)) :
    ∃ cfg', do_present cfg s o (.str v) = .ok cfg' ∧
      lookupPath cfg' [s, o] = some (.str v) ∧
      (lookupE cfg s = none → lookupE cfg' s = some (.sec (.consStr o v .nil))) ∧
      (∀ k, k ≠ s → lookupE cfg' k = lookupE cfg k) := by
  cases hl : lookupE cfg s with
  | none =>
    refine ⟨setE cfg s (.sec (consV o (.str v) .nil)), ?_, ?_, ?_, ?_⟩
    · simp [do_present, hl]
    · simp [lookupPath, lookupE_setE_self, consV, lookupE]
    · intro _
      rw [lookupE_setE_self]
      rfl
    · intro k hk
      exact lookupE_setE_ne cfg (fun hh => hk hh.symm) _
  | some w =>
    cases w with
    | str a => exact absurd hl (hs a)
    | sec es =>
      refine ⟨setE cfg s (.sec (mergeE es (consV o (.str v) .nil))), ?_, ?_, ?_, ?_⟩
      · simp [do_present, hl]
      · simp [lookupPath, lookupE_setE_self, mergeE, consV]
      · intro h
        exact Option.noConfusion h
      · intro k hk
        exact lookupE_setE_ne cfg (fun hh => hk hh.symm) _

/-- C1 counterexample: `sabnzbd.ini` binds top-level keys such as
`__version__` to plain values; in present mode on such a key the code
evaluates `config[section].merge(...)` on a string object and raises an
uncaught `AttributeError`, so no configuration state at all is ensured
afterwards, refuting the unrestricted claim. -/
theorem C1_cex :
    do_present (.consStr ("__version__") ("19") .nil) ("__version__") ("port") (.str ("8080"))
      = .error .attributeError := by
  simp [do_present, lookupE]

theorem C1_do_present_w :
    (∀ a, lookupE (.consSec ("misc") (.consStr ("port") ("8080") .nil) .nil)
        ("misc") ≠ some (.str a)) ∧
    (∃ cfg', do_present (.consSec ("misc") (.consStr ("port") ("8080") .nil) .nil)
        ("misc") ("https_port") (.str ("9090")) = .ok cfg' ∧
      lookupPath cfg' [("misc"), ("https_port")] = some (.str ("9090")) ∧
      (lookupE (.consSec ("misc") (.consStr ("port") ("8080") .nil) .nil) ("misc") = none →
        lookupE cfg' ("misc") = some (.sec (.consStr ("https_port") ("9090") .nil))) ∧
      (∀ k, k ≠ ("misc") →
        lookupE cfg' k = lookupE (.consSec ("misc") (.consStr ("port") ("8080") .nil) .nil) k)) := by
  have hs : ∀ a, lookupE (.consSec ("misc") (.consStr ("port") ("8080") .nil) .nil)
      ("misc") ≠ some (.str a) := by
    intro a h
    simp [lookupE] at h
  exact ⟨hs, C1_do_present _ ("misc") ("https_port") ("9090") hs⟩

/-- C2: when the configuration binds section `s` to a section, absent
mode with `option = None` removes the whole section (and nothing else),
and absent mode with a string option `o` removes exactly the entry `o`
from section `s`, leaving the rest of the section and of the
configuration in place. -/
theorem C2_do_absent (cfg es : CEntries) (s o : String) (val : PVal)
    (hsec : lookupE cfg s = some (.sec es)) (hwf : wfE cfg = true) :
    (do_absent cfg s .pynone val = .ok (eraseE cfg s) ∧
      lookupE (eraseE cfg s) s = none ∧
      (∀ k, k ≠ s → lookupE (eraseE cfg s) k = lookupE cfg k)) ∧
    (do_absent cfg s (.str o) val = .ok (setE cfg s (.sec (eraseE es o))) ∧
      lookupE (setE cfg s (.sec (eraseE es o))) s = some (.sec (eraseE es o)) ∧
      lookupE (eraseE es o) o = none ∧
      (∀ k, k ≠ o → lookupE (eraseE es o) k = lookupE es k) ∧
      (∀ k, k ≠ s → lookupE (setE cfg s (.sec (eraseE es o))) k = lookupE cfg k)) := by
  have hwfes : wfE es = true := wfE_of_lookupE_sec hwf hsec
  refine ⟨⟨?_, ?_, ?_⟩, ?_, ?_, ?_, ?_, ?_⟩
  · simp [do_absent, hsec]
  · exact lookupE_eraseE_self s hwf
  · intro k hk
    exact lookupE_eraseE_ne cfg hk
  · cases hlo : lookupE es o with
    | none =>
      have hmem : memKey es o = false := memKey_eq_false_of_lookupE_eq_none hlo
      simp [do_absent, hsec, hlo, eraseE_of_memKey_eq_false hmem]
    | some w => simp [do_absent, hsec, hlo]
  · exact lookupE_setE_self cfg s _
  · exact lookupE_eraseE_self o hwfes
  · intro k hk
    exact lookupE_eraseE_ne es hk
  · intro k hk
    exact lookupE_setE_ne cfg (fun hh => hk hh.symm) _

theorem C2_do_absent_w :
    lookupE (.consSec ("growl") (.consStr ("a") ("1") (.consStr ("o") ("2") .nil))
        (.consStr ("t") ("z") .nil)) ("growl")
      = some (.sec (.consStr ("a") ("1") (.consStr ("o") ("2") .nil))) ∧
    wfE (.consSec ("growl") (.consStr ("a") ("1") (.consStr ("o") ("2") .nil))
        (.consStr ("t") ("z") .nil)) = true ∧
    do_absent (.consSec ("growl") (.consStr ("a") ("1") (.consStr ("o") ("2") .nil))
        (.consStr ("t") ("z") .nil)) ("growl") .pynone .pynone
      = .ok (eraseE (.consSec ("growl") (.consStr ("a") ("1") (.consStr ("o") ("2") .nil))
        (.consStr ("t") ("z") .nil)) ("growl")) ∧
    do_absent (.consSec ("growl") (.consStr ("a") ("1") (.consStr ("o") ("2") .nil))
        (.consStr ("t") ("z") .nil)) ("growl") (.str ("o")) .pynone
      = .ok (setE (.consSec ("growl") (.consStr ("a") ("1") (.consStr ("o") ("2") .nil))
        (.consStr ("t") ("z") .nil)) ("growl")
          (.sec (eraseE (.consStr ("a") ("1") (.consStr ("o") ("2") .nil)) ("o")))) := by
  have h1 : lookupE (.consSec ("growl") (.consStr ("a") ("1") (.consStr ("o") ("2") .nil))
      (.consStr ("t") ("z") .nil)) ("growl")
      = some (.sec (.consStr ("a") ("1") (.consStr ("o") ("2") .nil))) := by
    simp [lookupE]
  have h2 : wfE (.consSec ("growl") (.consStr ("a") ("1") (.consStr ("o") ("2") .nil))
      (.consStr ("t") ("z") .nil)) = true := by decide
  have h := C2_do_absent _ _ ("growl") ("o") .pynone h1 h2
  exact ⟨h1, h2, h.1.1, h.2.1⟩

/-- C9: absent mode on a missing section is a successful no-op: the
`KeyError` from the section lookup is caught, no failure is reported,
and the configuration object is returned unchanged, whatever the
`option` and `value` arguments are. -/
theorem C9_do_absent_missing (cfg : CEntries) (s : String) (opt val : PVal)
    (h : lookupE cfg s = none) : do_absent cfg s opt val = .ok cfg := by
  simp [do_absent, h]

theorem C9_do_absent_missing_w :
    lookupE (.consSec ("misc") (.consStr ("port") ("8080") .nil) .nil) ("growl") = none ∧
    do_absent (.consSec ("misc") (.consStr ("port") ("8080") .nil) .nil) ("growl")
      (.str ("priority")) .pynone
      = .ok (.consSec ("misc") (.consStr ("port") ("8080") .nil) .nil) := by
  have h : lookupE (.consSec ("misc") (.consStr ("port") ("8080") .nil) .nil) ("growl")
      = none := by
    simp [lookupE]
  exact ⟨h, C9_do_absent_missing _ ("growl") (.str ("priority")) .pynone h⟩

theorem lookupPath_singleton (c : CEntries) (k : String) :
    lookupPath c [k] = lookupE c k := by
  cases h : lookupE c k <;> simp [lookupPath, h]

/-- A path the tree does not mention has no value in the tree itself. -/
theorem lookupPath_eq_none_of_unmentioned (q : List String) :
    ∀ (st : CEntries), unmentioned st q = true → lookupPath st q = none := by
  induction q with
  | nil => intro st h; simp [unmentioned] at h
  | cons k rest ih =>
    intro st h
    cases rest with
    | nil =>
      simp only [unmentioned, Bool.not_eq_true'] at h
      rw [lookupPath_singleton]
      exact lookupE_eq_none_of_memKey_eq_false h
    | cons r rs =>
      cases h1 : lookupE st k with
      | none => simp [lookupPath, h1]
      | some w =>
        cases w with
        | str a => simp [unmentioned, h1] at h
        | sec sub =>
          simp only [unmentioned, h1] at h
          simp only [lookupPath, h1]
          exact ih sub h

/-- `merge` leaves every path the incoming tree does not mention at its
previous value. -/
theorem lookupPath_mergeE_unmentioned (q : List String) :
    ∀ (st cfg : CEntries), wfE st = true → unmentioned st q = true →
    lookupPath (mergeE cfg st) q = lookupPath cfg q := by
  induction q with
  | nil => intro st cfg _ h; simp [unmentioned] at h
  | cons k rest ih =>
    intro st cfg hwf h
    have hm := lookupE_mergeE st hwf cfg k
    cases rest with
    | nil =>
      simp only [unmentioned, Bool.not_eq_true'] at h
      rw [lookupE_eq_none_of_memKey_eq_false h] at hm
      simp only at hm
      rw [lookupPath_singleton, lookupPath_singleton]
      exact hm
    | cons r rs =>
      cases h1 : lookupE st k with
      | none =>
        simp only [h1] at hm
        cases h2 : lookupE cfg k with
        | none =>
          rw [h2] at hm
          simp only [lookupPath, hm, h2]
        | some u =>
          rw [h2] at hm
          cases u with
          | str b => simp only [lookupPath, hm, h2]
          | sec e => simp only [lookupPath, hm, h2]
      | some w =>
        cases w with
        | str a => simp [unmentioned, h1] at h
        | sec sub =>
          simp only [unmentioned, h1] at h
          rw [h1] at hm
          simp only at hm
          have hsub : wfE sub = true := wfE_of_lookupE_sec hwf h1
          cases h2 : lookupE cfg k with
          | none =>
            rw [h2] at hm
            simp only at hm
            simp only [lookupPath, hm, h2]
            exact lookupPath_eq_none_of_unmentioned (r :: rs) sub h
          | some u =>
            cases u with
            | str b =>
              rw [h2] at hm
              simp only at hm
              simp only [lookupPath, hm, h2]
              exact lookupPath_eq_none_of_unmentioned (r :: rs) sub h
            | sec s0 =>
              rw [h2] at hm
              simp only at hm
              simp only [lookupPath, hm, h2]
              exact ih sub s0 hsub h

/-- C4: batch mode merges the whole `settings` tree recursively into the
existing configuration in one operation: every string entry of the tree,
at any path, is present in the resulting configuration, and every key
the tree does not mention keeps its previous value — a top-level key the
tree does not bind, and likewise, at any depth, an entry of a section
the tree does mention that the corresponding tree section does not bind.
(`settings` is a Python dictionary, so it binds each key once at every
level.) -/
theorem C4_do_batch (cfg settings : CEntries) (hwf : wfE settings = true) :
    (∀ p v, lookupPath settings p = some (.str v) →
      lookupPath (do_batch cfg settings) p = some (.str v)) ∧
    (∀ k, memKey settings k = false →
      lookupE (do_batch cfg settings) k = lookupE cfg k) ∧
    (∀ q, unmentioned settings q = true →
      lookupPath (do_batch cfg settings) q = lookupPath cfg q) := by
  refine ⟨?_, ?_, ?_⟩
  · intro p v h
    exact lookupPath_mergeE p settings cfg v hwf h
  · intro k hk
    have h := lookupE_mergeE settings hwf cfg k
    rw [lookupE_eq_none_of_memKey_eq_false hk] at h
    simpa using h
  · intro q hq
    exact lookupPath_mergeE_unmentioned q settings cfg hwf hq

theorem C4_do_batch_w :
    wfE (.consSec ("misc") (.consStr ("port") ("9090") .nil) .nil) = true ∧
    lookupPath (.consSec ("misc") (.consStr ("port") ("9090") .nil) .nil)
      [("misc"), ("port")] = some (.str ("9090")) ∧
    lookupPath
      (do_batch
        (.consSec ("misc") (.consStr ("port") ("8080") (.consStr ("api") ("k") .nil))
          (.consStr ("top") ("x") .nil))
        (.consSec ("misc") (.consStr ("port") ("9090") .nil) .nil))
      [("misc"), ("port")] = some (.str ("9090")) ∧
    memKey (.consSec ("misc") (.consStr ("port") ("9090") .nil) .nil) ("top") = false ∧
    lookupE
      (do_batch
        (.consSec ("misc") (.consStr ("port") ("8080") (.consStr ("api") ("k") .nil))
          (.consStr ("top") ("x") .nil))
        (.consSec ("misc") (.consStr ("port") ("9090") .nil) .nil))
      ("top")
      = lookupE (.consSec ("misc") (.consStr ("port") ("8080") (.consStr ("api") ("k") .nil))
          (.consStr ("top") ("x") .nil)) ("top") ∧
    unmentioned (.consSec ("misc") (.consStr ("port") ("9090") .nil) .nil)
      [("misc"), ("api")] = true ∧
    lookupPath
      (do_batch
        (.consSec ("misc") (.consStr ("port") ("8080") (.consStr ("api") ("k") .nil))
          (.consStr ("top") ("x") .nil))
        (.consSec ("misc") (.consStr ("port") ("9090") .nil) .nil))
      [("misc"), ("api")]
      = lookupPath (.consSec ("misc") (.consStr ("port") ("8080") (.consStr ("api") ("k") .nil))
          (.consStr ("top") ("x") .nil)) [("misc"), ("api")] := by
  have hwf : wfE (.consSec ("misc") (.consStr ("port") ("9090") .nil) .nil) = true := by
    decide
  have hp : lookupPath (.consSec ("misc") (.consStr ("port") ("9090") .nil) .nil)
      [("misc"), ("port")] = some (.str ("9090")) := by decide
  have hmem : memKey (.consSec ("misc") (.consStr ("port") ("9090") .nil) .nil) ("top")
      = false := by decide
  have hq : unmentioned (.consSec ("misc") (.consStr ("port") ("9090") .nil) .nil)
      [("misc"), ("api")] = true := by decide
  have h := C4_do_batch
    (.consSec ("misc") (.consStr ("port") ("8080") (.consStr ("api") ("k") .nil))
      (.consStr ("top") ("x") .nil))
    (.consSec ("misc") (.consStr ("port") ("9090") .nil) .nil) hwf
  exact ⟨hwf, hp, h.1 _ _ hp, hmem, h.2.1 _ hmem, hq, h.2.2 _ hq⟩

/-- C3 counterexample: outside check mode `run` returns the result of
`set_fs_attributes_if_different(file_args, changed)`, which also reports
`true` when only a file attribute (owner, mode, context) had to be
adjusted; here the two snapshots are structurally equal and `run`
nevertheless returns changed = true, refuting the claimed
"if and only if". -/
theorem C3_cex :
    run_changed ⟨false, false, true⟩ .nil .nil = .ok true ∧
    is_changed .nil .nil = false := by
  constructor <;> rfl

/-- C3 (amended): the change flag computed by `run` is exactly the
structural inequality of the two dictionary snapshots, and it is the
value `run` returns in check mode, and also outside check mode whenever
the framework's file-attribute synchronisation reports no attribute
change and no backup is requested (the backup branch instead aborts with
`NameError`, and an attribute change can turn the reported result to
`true` even for equal snapshots). -/
theorem C3_run_changed (ctx : RunCtx) (i n : CEntries)
    (h : ctx.check_mode = true ∨ (ctx.fsAttrsChanged = false ∧ ctx.backup = false)) :
    (run_changed ctx i n = .ok true ↔ i ≠ n) ∧
    (run_changed ctx i n = .ok false ↔ i = n) := by
  obtain ⟨cm, bk, fa⟩ := ctx
  by_cases hin : i = n <;>
    rcases h with h | ⟨h1, h2⟩ <;>
      simp_all [run_changed, cleanup_changed, is_changed, set_fs_attributes_if_different]

theorem C3_run_changed_w :
    ((⟨true, false, false⟩ : RunCtx).check_mode = true ∨
      ((⟨true, false, false⟩ : RunCtx).fsAttrsChanged = false ∧
        (⟨true, false, false⟩ : RunCtx).backup = false)) ∧
    (run_changed ⟨true, false, false⟩ .nil (.consStr ("a") ("b") .nil) = .ok true ↔
      (.nil : CEntries) ≠ .consStr ("a") ("b") .nil) := by
  exact ⟨Or.inl rfl, (C3_run_changed ⟨true, false, false⟩ _ _ (Or.inl rfl)).1⟩

/-- C5 counterexample: already in the plainest invocation (no check
mode, no backup, no change detected) the configuration file is parsed
twice and written three times — `read_config` always triggers a
library-side write via the forced `save_config`, and `run`
unconditionally calls `write_config` before reloading — refuting
"read exactly once, rewritten at most once, and only when changed". -/
theorem C5_cex :
    countReads (run_trace ⟨false, false, false⟩ false).1 = 2 ∧
    countWrites (run_trace ⟨false, false, false⟩ false).1 = 3 := by
  constructor <;> rfl

/-- C5 (amended): every invocation parses the configuration file exactly
twice and writes it three times (each of the two `read_config` calls
forces a `save_config` write, and `run` always calls `write_config`),
plus a fourth write in `cleanup` exactly when a change was detected
outside check mode without the backup flag; the backup branch aborts
with `NameError`; the pre-run state is restored from the temporary copy
exactly in check mode.  The file is additionally copied aside once at
start-up. -/
theorem C5_run_trace (ctx : RunCtx) (changed : Bool) :
    countReads (run_trace ctx changed).1 = 2 ∧
    countWrites (run_trace ctx changed).1 =
      3 + (if ctx.check_mode = false ∧ changed = true ∧ ctx.backup = false then 1 else 0) ∧
    ((run_trace ctx changed).2 = some .nameError ↔
      (ctx.check_mode = false ∧ changed = true ∧ ctx.backup = true)) ∧
    (FEvent.restore ∈ (run_trace ctx changed).1 ↔ ctx.check_mode = true) := by
  obtain ⟨cm, bk, fa⟩ := ctx
  cases cm <;> cases bk <;> cases fa <;> cases changed <;> decide

theorem C5_run_trace_w :
    countReads (run_trace ⟨true, false, false⟩ false).1 = 2 ∧
    countWrites (run_trace ⟨true, false, false⟩ false).1 = 3 ∧
    FEvent.restore ∈ (run_trace ⟨true, false, false⟩ false).1 := by
  have h := C5_run_trace ⟨true, false, false⟩ false
  refine ⟨h.1, ?_, (h.2.2.2).2 rfl⟩
  have h2 := h.2.1
  simpa using h2

/-- C6: the claim (and the spec) say an unwritable configuration file is
surfaced through `fail_json` like the other failures; in the code,
`write_config`'s `IOError` handler interpolates the undefined name
`filename` (the attribute is `self.filename`) and so raises an uncaught
`NameError` — the invocation dies with a traceback instead of the
intended clean `fail_json` result.  The other failure modes do reach a
parameter-level rejection or `fail_json`. -/
theorem C6_module_outcome :
    module_outcome ⟨("present"), false, true, true, true, true, true, false,
      false, false, false⟩ true = .crash ("NameError") ∧
    module_outcome ⟨("present"), false, true, true, false, true, true, true,
      false, false, false⟩ true = .failJsonMsg ("Cannot load SABnzbd python libraries") ∧
    module_outcome ⟨("present"), false, true, true, true, false, true, true,
      false, false, false⟩ true = .failJsonMsg ("Cannot read SABnzbd config file") ∧
    module_outcome ⟨("frobnicate"), true, true, true, true, true, true, true,
      false, false, false⟩ true = .paramFail := by
  refine ⟨rfl, rfl, rfl, rfl⟩

/-- C7 counterexample: the plugin parameter system accepts `state=batch`
with every optional argument omitted (`settings`, `section`, `option`
are all `required=False`), yet the module's own `validate` rejects this
invocation as having missing arguments — so the request descriptor does
have validity requirements beyond the parameter system, refuting the
claim. -/
theorem C7_cex :
    argument_spec_accepts true ("batch") = true ∧
    validateMissing ("batch") false false false = [("settings")] := by
  constructor <;> rfl

/-- C7 (amended): beyond the parameter system's checks (`dest` required,
`state` in its choices), the module itself enforces mode-dependent
requirements in `validate`: batch mode requires `settings` to be a
dictionary, present mode requires `section` and `option`, absent mode
requires `section`; exactly the accepted combinations meeting these are
not rejected as having missing arguments. -/
theorem C7_validate (st : String) (sd ss os : Bool) :
    validateMissing st sd ss os = [] ↔
      ((st = ("batch") → sd = true) ∧
        (st = ("present") → (ss = true ∧ os = true)) ∧
        (st = ("absent") → ss = true)) := by
  by_cases h1 : st = ("batch")
  · subst h1
    cases sd <;> cases ss <;> cases os <;> decide
  · by_cases h2 : st = ("present")
    · subst h2
      cases sd <;> cases ss <;> cases os <;> decide
    · by_cases h3 : st = ("absent")
      · subst h3
        cases sd <;> cases ss <;> cases os <;> decide
      · simp [validateMissing, h1, h2, h3]

theorem C7_validate_w :
    validateMissing ("present") false true true = [] := by
  exact (C7_validate ("present") false true true).mpr
    ⟨fun h => absurd h (by decide), fun _ => ⟨rfl, rfl⟩, fun h => absurd h (by decide)⟩

/-- C8: the claim (and the spec) say a timestamped backup copy is made
before the overwrite whenever the backup flag is set and a change was
detected; in the code, `cleanup` passes the undefined name `filename` to
`module.backup_local`, raising an uncaught `NameError` — no backup copy
is ever produced and the invocation crashes; with the flag unset or no
change detected no backup is attempted either. -/
theorem C8_backup_nameerror :
    (run_trace ⟨false, true, false⟩ true).2 = some .nameError ∧
    countBackups (run_trace ⟨false, true, false⟩ true).1 = 0 ∧
    countBackups (run_trace ⟨false, false, false⟩ true).1 = 0 ∧
    countBackups (run_trace ⟨false, true, false⟩ false).1 = 0 ∧
    (run_trace ⟨false, true, false⟩ false).2 = none := by
  refine ⟨rfl, rfl, rfl, rfl, rfl⟩

theorem dropWhile_append_of_forall {p : Char → Bool} {l1 l2 : List Char}
    (h : ∀ c ∈ l1, p c = true) :
    (l1 ++ l2).dropWhile p = l2.dropWhile p := by
  induction l1 with
  | nil => simp
  | cons c cs ih =>
    have hc : p c = true := h c (List.mem_cons_self c cs)
    simp [List.dropWhile_cons, hc, ih (fun x hx => h x (List.mem_cons_of_mem c hx))]

theorem posixDirname_append (d b : List Char)
    (hb : ∀ c ∈ b, c ≠ '/') (hd : ∃ c ∈ d, c ≠ '/') :
    posixDirname (d ++ '/' :: b) = rstripSlashes d := by
  have hforall : ∀ c ∈ b.reverse, (decide (c ≠ '/')) = true := by
    intro c hc
    simpa using hb c (List.mem_reverse.mp hc)
  have hrev : (d ++ '/' :: b).reverse = b.reverse ++ '/' :: d.reverse := by
    simp [List.reverse_append]
  have hdrop : (d ++ '/' :: b).reverse.dropWhile (fun c => decide (c ≠ '/'))
      = '/' :: d.reverse := by
    rw [hrev, dropWhile_append_of_forall (fun c hc => hforall c hc)]
    simp [List.dropWhile_cons]
  have hany : (d ++ [('/' : Char)]).any (fun c => decide (c ≠ '/')) = true := by
    obtain ⟨c, hc, hne⟩ := hd
    exact List.any_eq_true.mpr ⟨c, List.mem_append_left _ hc, by simpa using hne⟩
  have hstrip : rstripSlashes (d ++ [('/' : Char)]) = rstripSlashes d := by
    simp [rstripSlashes, List.reverse_append, List.dropWhile_cons]
  simp only [posixDirname, hdrop, List.reverse_cons, List.reverse_reverse]
  rw [if_pos]
  · exact hstrip
  · exact ⟨by simp, hany⟩

/-- C10: when the `libdir` parameter is omitted, the module loads the
SABnzbd libraries from the directory component of the destination file
path: `set_libdir` is `posixpath.dirname` of the destination, which for
a path of the form `dir/base` (with `base` slash-free and `dir` not
consisting solely of slashes) is `dir` with trailing slashes stripped; a
given `libdir` is used as-is. -/
theorem C10_set_libdir (d b : List Char)
    (hb : ∀ c ∈ b, c ≠ '/') (hd : ∃ c ∈ d, c ≠ '/') :
    set_libdir none (d ++ '/' :: b) = rstripSlashes d ∧
    (∀ f : List Char, set_libdir none f = posixDirname f) ∧
    (∀ ld f : List Char, set_libdir (some ld) f = ld) :=
  ⟨posixDirname_append d b hb hd, fun _ => rfl, fun _ _ => rfl⟩

theorem C10_set_libdir_w :
    (∀ c ∈ ("sabnzbd.ini").toList, c ≠ '/') ∧
    (∃ c ∈ ("/opt/sabnzbd").toList, c ≠ '/') ∧
    set_libdir none (("/opt/sabnzbd").toList ++ '/' :: ("sabnzbd.ini").toList)
      = rstripSlashes (("/opt/sabnzbd").toList) := by
  have h1 : ∀ c ∈ ("sabnzbd.ini").toList, c ≠ '/' := by decide
  have h2 : ∃ c ∈ ("/opt/sabnzbd").toList, c ≠ '/' := by decide
  exact ⟨h1, h2, (C10_set_libdir _ _ h1 h2).1⟩

end SabnzbdConfig
